import Mathlib

/-!
The `Chat` component of `src/App.js`.

A shallow embedding of the React component `Chat`: its seven `useState` cells, the
handler `handleSendMessage`, the slider and textarea handlers, the `useEffect` that
watches `messages`, and the asynchronous function `fetchAIResponse` that calls
`openai.createCompletion` and appends the first candidate of the response.

JavaScript numbers are only stored and passed on (never computed with), so they are
embedded as rationals.  A JavaScript expression that can throw a `TypeError`
returns an `Option`, with `none` for the throw.
-/

/-- The `sender` field of a message: the strings `"user"` and `"ai"` of the source. -/
inductive Sender where
  | user
  | ai
  deriving DecidableEq, Repr

/-- One element of the `messages` array: `{ sender, text }`. -/
structure Message where
  sender : Sender
  text : String
  deriving DecidableEq, Repr

/-- One element of `response.data.choices`; only its `text` is read. -/
structure Choice where
  text : String
  deriving DecidableEq, Repr

/-- The argument object of `openai.createCompletion` (App.js lines 51-62). -/
structure CompletionRequest where
  model : String
  prompt : String
  temperature : ℚ
  max_tokens : ℚ
  top_p : ℚ
  frequency_penalty : ℚ
  presence_penalty : ℚ
  stop : List String
  deriving DecidableEq, Repr

/-- The `useState` cells of `Chat` (App.js lines 32-39). -/
structure ChatState where
  messages : List Message
  inputValue : String
  temperature : ℚ
  maxTokens : ℚ
  topP : ℚ
  frequencyPenalty : ℚ
  presencePenalty : ℚ
  deriving DecidableEq, Repr

/-- The initial values given to `useState` (App.js lines 32-39). -/
def ChatState.initial : ChatState where
  messages := []
  inputValue := ""
  temperature := 0.9
  maxTokens := 150
  topP := 1
  frequencyPenalty := 0.0
  presencePenalty := 0.6

/-- The body of `handleSendMessage` (App.js lines 41-47): the updater
`(prevMessages) => [...prevMessages, { sender: "user", text: inputValue }]`
followed by `setInputValue("")`. -/
def handleSendMessage (c : ChatState) : ChatState :=
  { c with
    messages := c.messages ++ [{ sender := Sender.user, text := c.inputValue }]
    inputValue := "" }

/-- The fixed head of the template literal of App.js line 53, up to and including
the two newlines before `Human: `. -/
def preamble : String :=
  "The following is a conversation with an AI assistant. The assistant is helpful, creative, clever, and very friendly.\n\n"

/-- The template literal of App.js lines 53-55.  `messages[messages.length - 1]` is
`undefined` on the empty array, and reading `.text` of it throws (`none`). -/
def prompt (messages : List Message) : Option String :=
  match messages[messages.length - 1]? with
  | some m => some (preamble ++ "Human: " ++ m.text ++ "\nAI:")
  | none => none

/-- The argument object built by `fetchAIResponse` before its `await`
(App.js lines 51-62), from the values of the render the effect belongs to. -/
def createCompletionArgs (c : ChatState) : Option CompletionRequest :=
  match prompt c.messages with
  | some p =>
    some
      { model := "text-davinci-003"
        prompt := p
        temperature := c.temperature
        max_tokens := c.maxTokens
        top_p := c.topP
        frequency_penalty := c.frequencyPenalty
        presence_penalty := c.presencePenalty
        stop := [" Human:", " AI:"] }
  | none => none

/-- The guard of the effect (App.js lines 72-75):
`messages.length > 0 && messages[messages.length - 1].sender === "user"`. -/
def trigger (messages : List Message) : Bool :=
  decide (messages.length > 0) &&
    (match messages[messages.length - 1]? with
     | some m => decide (m.sender = Sender.user)
     | none => false)

/-- The effect callback of App.js lines 49-78, run for the state `c` of the render it
closes over: the request it sends, if any.  A throw inside the `async` function
`fetchAIResponse` before the call would only reject its promise, so it sends nothing. -/
def effect (c : ChatState) : Option CompletionRequest :=
  if trigger c.messages then createCompletionArgs c else none

/-- The updater passed to `setMessages` once the response has arrived
(App.js lines 66-69): `(prevMessages) => [...prevMessages, { sender: "ai", text:
response.data.choices[0].text }]`.  The expression `response.data.choices[0].text` is
inside the arrow function, so it is evaluated when React runs the updater; on an empty
`choices` it throws there (`none`). -/
def appendResponse (choices : List Choice) (prevMessages : List Message) :
    Option (List Message) :=
  match choices[0]? with
  | some c => some (prevMessages ++ [{ sender := Sender.ai, text := c.text }])
  | none => none

/-- Everything that can happen to the mounted page: the handlers wired in the JSX
(App.js lines 117-240) and the settling of a `createCompletion` promise.  In `resolve`
and `reject` the number is the position of the request among those still in flight. -/
inductive Event where
  | setInputValue (value : String)
  | handleSendMessage
  | setTemperature (value : ℚ)
  | setMaxTokens (value : ℚ)
  | setTopP (value : ℚ)
  | setFrequencyPenalty (value : ℚ)
  | setPresencePenalty (value : ℚ)
  | resolve (i : Nat) (choices : List Choice)
  | reject (i : Nat)
  deriving DecidableEq, Repr

/-- The page together with the completion service.
* `chat` is the hook state of `Chat`, or `none` once React has unmounted the tree
  (an error thrown while rendering, with no error boundary in the source);
* `inflight` are the requests whose promise has not settled yet, oldest first;
* `calls` is the record of every `openai.createCompletion` call made so far. -/
structure Sys where
  chat : Option ChatState
  inflight : List CompletionRequest
  calls : List CompletionRequest
  deriving DecidableEq, Repr

/-- The page right after mounting: the effect has run once on `messages = []`, where
its guard is false, so nothing was sent. -/
def Sys.initial : Sys where
  chat := some ChatState.initial
  inflight := []
  calls := []

/-- React commits the state `c` and then runs the effect when its only dependency,
`messages`, is a new array (`messagesReplaced`: `setMessages` ran, and both updaters
of the source build a fresh array). -/
def commit (s : Sys) (c : ChatState) (messagesReplaced : Bool) : Sys :=
  if messagesReplaced then
    match effect c with
    | some r => { chat := some c, inflight := s.inflight ++ [r], calls := s.calls ++ [r] }
    | none => { s with chat := some c }
  else { s with chat := some c }

/-- A handler of the page run on the hook state: the new state and whether
`setMessages` was called.  Settling events are not handlers of the page. -/
def handle (c : ChatState) : Event → ChatState × Bool
  | Event.setInputValue v => ({ c with inputValue := v }, false)
  | Event.handleSendMessage => (handleSendMessage c, true)
  | Event.setTemperature v => ({ c with temperature := v }, false)
  | Event.setMaxTokens v => ({ c with maxTokens := v }, false)
  | Event.setTopP v => ({ c with topP := v }, false)
  | Event.setFrequencyPenalty v => ({ c with frequencyPenalty := v }, false)
  | Event.setPresencePenalty v => ({ c with presencePenalty := v }, false)
  | Event.resolve _ _ => (c, false)
  | Event.reject _ => (c, false)

/-- What remains of `fetchAIResponse` after its `await` (App.js lines 64-69), for the
request at position `i` settled with `choices`.  On an unmounted tree `setMessages`
does nothing.  When the updater throws, React meets the error while rendering and,
there being no error boundary, unmounts the tree. -/
def resolved (s : Sys) (i : Nat) (choices : List Choice) : Sys :=
  let s1 : Sys := { s with inflight := s.inflight.eraseIdx i }
  match s.chat with
  | none => s1
  | some c =>
    match appendResponse choices c.messages with
    | some msgs => commit s1 { c with messages := msgs } true
    | none => { s1 with chat := none }

/-- One event.  A rejected `await` ends `fetchAIResponse` at line 51: nothing after it
runs.  A settling event for a position with no request in flight cannot occur and is
ignored, and so is a page event after the tree was unmounted. -/
def step (s : Sys) : Event → Sys
  | Event.resolve i choices => if i < s.inflight.length then resolved s i choices else s
  | Event.reject i =>
    if i < s.inflight.length then { s with inflight := s.inflight.eraseIdx i } else s
  | e =>
    match s.chat with
    | some c => commit s (handle c e).1 (handle c e).2
    | none => s

/-- A sequence of events, oldest first. -/
def run (s : Sys) (es : List Event) : Sys :=
  es.foldl step s

/-- The request that `fetchAIResponse` sends for the latest text `t` under the
slider values of `c`. -/
def requestFor (c : ChatState) (t : String) : CompletionRequest where
  model := "text-davinci-003"
  prompt := preamble ++ "Human: " ++ t ++ "\nAI:"
  temperature := c.temperature
  max_tokens := c.maxTokens
  top_p := c.topP
  frequency_penalty := c.frequencyPenalty
  presence_penalty := c.presencePenalty
  stop := [" Human:", " AI:"]

/-- The conversation alternates over `n` exchanges: turn `2 * k` is a user turn and
turn `2 * k + 1` an assistant turn, for every `k < n`. -/
def Alternates (msgs : List Message) (n : Nat) : Prop :=
  ∀ k, k < n →
    (msgs[2 * k]?).map Message.sender = some Sender.user ∧
      (msgs[2 * k + 1]?).map Message.sender = some Sender.ai

/-- The number of turns of `msgs` written by `who`. -/
def turnsBy (who : Sender) (msgs : List Message) : Nat :=
  msgs.countP (fun m => decide (m.sender = who))

/-- The five values shown by the sliders of the configuration panel. -/
structure GenerationParameters where
  temperature : ℚ
  maxTokens : ℚ
  topP : ℚ
  frequencyPenalty : ℚ
  presencePenalty : ℚ
  deriving DecidableEq, Repr

/-- The value each slider was last set to once the event `e` has happened, given the
values `p` before it: only the `onChange` handler of a slider (App.js lines 152, 177,
198, 215, 232) sets one. -/
def moveSlider (p : GenerationParameters) : Event → GenerationParameters
  | Event.setTemperature v => { p with temperature := v }
  | Event.setMaxTokens v => { p with maxTokens := v }
  | Event.setTopP v => { p with topP := v }
  | Event.setFrequencyPenalty v => { p with frequencyPenalty := v }
  | Event.setPresencePenalty v => { p with presencePenalty := v }
  | _ => p

/-- The value each slider was last set to after the events `es`, starting from the
initial values of App.js lines 35-39. -/
def lastSet (es : List Event) : GenerationParameters :=
  es.foldl moveSlider
    { temperature := 0.9, maxTokens := 150, topP := 1, frequencyPenalty := 0.0,
      presencePenalty := 0.6 }

/-- The five generation parameters held in the hook state. -/
def ChatState.parameters (c : ChatState) : GenerationParameters where
  temperature := c.temperature
  maxTokens := c.maxTokens
  topP := c.topP
  frequencyPenalty := c.frequencyPenalty
  presencePenalty := c.presencePenalty

/-- Every assistant turn is answered for: in each initial segment of the conversation
there are at least as many user turns as assistant turns. -/
def TurnsBalanced (msgs : List Message) : Prop :=
  ∀ k, turnsBy Sender.ai (msgs.take k) ≤ turnsBy Sender.user (msgs.take k)

/-- A submission of the pending input. -/
def isSubmission : Event → Bool
  | Event.handleSendMessage => true
  | _ => false

/-- A response that is not a successful one: a rejected promise, or a response whose
list of candidates is empty. -/
def isFailure : Event → Bool
  | Event.reject _ => true
  | Event.resolve _ [] => true
  | _ => false

/-- The number of submissions among the events. -/
def submissions (es : List Event) : Nat :=
  es.countP isSubmission

/-- No response among the events is a failure. -/
def allSuccessful (es : List Event) : Bool :=
  es.all (fun e => !isFailure e)

/-- Each response arrives before the next submission: whenever the user submits
during `es`, run from `s`, no request is in flight. -/
def oneAtATime (s : Sys) : List Event → Bool
  | [] => true
  | e :: es => (!isSubmission e || s.inflight.isEmpty) && oneAtATime (step s e) es

/-- The two states of the exchange when requests never overlap, after `n` submissions:
either nothing is in flight and the conversation consists of `n` alternating
exchanges, or one request is in flight and the conversation consists of `n - 1`
alternating exchanges followed by the user turn that is being answered. -/
def InStep (s : Sys) (n : Nat) : Prop :=
  ∃ c, s.chat = some c ∧
    ((s.inflight = [] ∧ c.messages.length = 2 * n ∧ Alternates c.messages n) ∨
      (s.inflight.length = 1 ∧
        ∃ l t, c.messages = l ++ [{ sender := Sender.user, text := t }] ∧
          l.length + 2 = 2 * n ∧ Alternates l (n - 1)))

/-! Basic facts about the embedding. -/

theorem getElem?_length_sub_one_append (l : List Message) (m : Message) :
    (l ++ [m])[(l ++ [m]).length - 1]? = some m := by
  simp

theorem prompt_append (l : List Message) (m : Message) :
    prompt (l ++ [m]) = some (preamble ++ "Human: " ++ m.text ++ "\nAI:") := by
  unfold prompt
  rw [getElem?_length_sub_one_append]

theorem trigger_append (l : List Message) (m : Message) :
    trigger (l ++ [m]) = decide (m.sender = Sender.user) := by
  unfold trigger
  rw [getElem?_length_sub_one_append]
  simp

/-- On mount the effect runs on the empty conversation and sends nothing. -/
theorem effect_initial : effect ChatState.initial = none := rfl

theorem effect_handleSendMessage (c : ChatState) :
    effect (handleSendMessage c) = some (requestFor c c.inputValue) := by
  simp [effect, handleSendMessage, trigger_append, createCompletionArgs, prompt_append,
    requestFor]

theorem effect_append_ai (c : ChatState) (t : String) :
    effect { c with messages := c.messages ++ [{ sender := Sender.ai, text := t }] } = none := by
  simp [effect, trigger_append]

theorem step_handleSendMessage (s : Sys) (c : ChatState) (h : s.chat = some c) :
    step s Event.handleSendMessage =
      { chat := some (handleSendMessage c)
        inflight := s.inflight ++ [requestFor c c.inputValue]
        calls := s.calls ++ [requestFor c c.inputValue] } := by
  simp [step, h, handle, commit, effect_handleSendMessage]

theorem step_resolve_cons (s : Sys) (c : ChatState) (i : Nat) (first : Choice)
    (rest : List Choice) (h : s.chat = some c) (hi : i < s.inflight.length) :
    step s (Event.resolve i (first :: rest)) =
      { chat := some { c with messages := c.messages ++ [{ sender := Sender.ai, text := first.text }] }
        inflight := s.inflight.eraseIdx i
        calls := s.calls } := by
  simp [step, hi, resolved, h, appendResponse, commit, effect_append_ai]

theorem step_resolve_nil (s : Sys) (c : ChatState) (i : Nat)
    (h : s.chat = some c) (hi : i < s.inflight.length) :
    step s (Event.resolve i []) =
      { chat := none, inflight := s.inflight.eraseIdx i, calls := s.calls } := by
  simp [step, hi, resolved, h, appendResponse]

theorem step_resolve_unmounted (s : Sys) (i : Nat) (choices : List Choice)
    (h : s.chat = none) (hi : i < s.inflight.length) :
    step s (Event.resolve i choices) =
      { chat := none, inflight := s.inflight.eraseIdx i, calls := s.calls } := by
  simp [step, hi, resolved, h]

theorem step_reject (s : Sys) (i : Nat) (hi : i < s.inflight.length) :
    step s (Event.reject i) = { s with inflight := s.inflight.eraseIdx i } := by
  simp [step, hi]

theorem step_out_of_range_resolve (s : Sys) (i : Nat) (choices : List Choice)
    (hi : ¬ i < s.inflight.length) : step s (Event.resolve i choices) = s := by
  simp [step, hi]

theorem step_out_of_range_reject (s : Sys) (i : Nat)
    (hi : ¬ i < s.inflight.length) : step s (Event.reject i) = s := by
  simp [step, hi]

theorem run_cons (s : Sys) (e : Event) (es : List Event) :
    run s (e :: es) = run (step s e) es := rfl

theorem step_unmounted_chat (s : Sys) (e : Event) (h : s.chat = none) :
    (step s e).chat = none := by
  cases e <;> simp only [step, h] <;> split <;> simp [resolved, h]

/-- Only `handleSendMessage` makes a call. -/
theorem calls_step_of_ne_send (s : Sys) (e : Event) (h : e ≠ Event.handleSendMessage) :
    (step s e).calls = s.calls := by
  cases e with
  | handleSendMessage => exact absurd rfl h
  | resolve i choices =>
    by_cases hi : i < s.inflight.length
    · cases hc : s.chat with
      | none => rw [step_resolve_unmounted s i choices hc hi]
      | some c =>
        cases choices with
        | nil => rw [step_resolve_nil s c i hc hi]
        | cons first rest => rw [step_resolve_cons s c i first rest hc hi]
    · rw [step_out_of_range_resolve s i choices hi]
  | reject i =>
    by_cases hi : i < s.inflight.length
    · rw [step_reject s i hi]
    · rw [step_out_of_range_reject s i hi]
  | _ => cases hc : s.chat <;> simp [step, hc, handle, commit]

theorem calls_run_of_no_send (s : Sys) (es : List Event)
    (h : ∀ e ∈ es, e ≠ Event.handleSendMessage) : (run s es).calls = s.calls := by
  induction es generalizing s with
  | nil => rfl
  | cons e es ih =>
    rw [run_cons, ih (step s e) (fun x hx => h x (List.mem_cons_of_mem _ hx)),
      calls_step_of_ne_send s e (h e (List.mem_cons_self _ _))]

theorem handle_of_ne_send (c : ChatState) (e : Event) (h : e ≠ Event.handleSendMessage) :
    (handle c e).1.messages = c.messages ∧ (handle c e).2 = false := by
  cases e <;> first | exact absurd rfl h | exact ⟨rfl, rfl⟩

/-- The five shapes of a step: nothing is mounted; a submission; a response with a
first candidate; a response without one; anything else, which keeps the messages. -/
theorem step_cases (s : Sys) (e : Event) :
    (s.chat = none ∧ (step s e).chat = none ∧ (step s e).calls = s.calls ∧
        (step s e).inflight.length ≤ s.inflight.length) ∨
      (∃ c, s.chat = some c ∧ e = Event.handleSendMessage ∧
        step s e =
          { chat := some (handleSendMessage c)
            inflight := s.inflight ++ [requestFor c c.inputValue]
            calls := s.calls ++ [requestFor c c.inputValue] }) ∨
      (∃ c i first rest, s.chat = some c ∧ e = Event.resolve i (first :: rest) ∧
        i < s.inflight.length ∧
        step s e =
          { chat := some { c with messages := c.messages ++ [{ sender := Sender.ai, text := first.text }] }
            inflight := s.inflight.eraseIdx i
            calls := s.calls }) ∨
      (∃ c i, s.chat = some c ∧ e = Event.resolve i [] ∧ i < s.inflight.length ∧
        step s e = { chat := none, inflight := s.inflight.eraseIdx i, calls := s.calls }) ∨
      (∃ c, s.chat = some c ∧ e ≠ Event.handleSendMessage ∧
        (step s e).chat = some (handle c e).1 ∧ (step s e).calls = s.calls ∧
        (step s e).inflight.length ≤ s.inflight.length) := by
  cases hc : s.chat with
  | none =>
    left
    refine ⟨rfl, step_unmounted_chat s e hc, ?_, ?_⟩
    · cases e <;> simp only [step, hc] <;> (try split) <;> simp [resolved, hc]
    · cases e <;> simp only [step, hc] <;> (try split) <;>
        simp [resolved, hc, List.length_eraseIdx_le]
  | some c =>
    right
    cases e with
    | handleSendMessage =>
      left
      exact ⟨c, rfl, rfl, step_handleSendMessage s c hc⟩
    | resolve i choices =>
      by_cases hi : i < s.inflight.length
      · cases choices with
        | nil =>
          right; right; left
          exact ⟨c, i, rfl, rfl, hi, step_resolve_nil s c i hc hi⟩
        | cons first rest =>
          right; left
          exact ⟨c, i, first, rest, rfl, rfl, hi, step_resolve_cons s c i first rest hc hi⟩
      · right; right; right
        rw [step_out_of_range_resolve s i choices hi]
        exact ⟨c, rfl, by simp, by simp [hc, handle], rfl, le_refl _⟩
    | reject i =>
      right; right; right
      by_cases hi : i < s.inflight.length
      · rw [step_reject s i hi]
        exact ⟨c, rfl, by simp, by simp [hc, handle], rfl, List.length_eraseIdx_le _ _⟩
      · rw [step_out_of_range_reject s i hi]
        exact ⟨c, rfl, by simp, by simp [hc, handle], rfl, le_refl _⟩
    | _ =>
      right; right; right
      exact ⟨c, rfl, by simp, by simp [step, hc, handle, commit],
        by simp [step, hc, handle, commit], by simp [step, hc, handle, commit]⟩

theorem turnsBy_append (who : Sender) (l : List Message) (m : Message) :
    turnsBy who (l ++ [m]) = turnsBy who l + if m.sender = who then 1 else 0 := by
  simp [turnsBy, List.countP_append, List.countP_singleton]

theorem calls_length_step (s : Sys) (e : Event)
    (h : ∀ c, s.chat = some c → s.calls.length = turnsBy Sender.user c.messages) :
    ∀ c, (step s e).chat = some c →
      (step s e).calls.length = turnsBy Sender.user c.messages := by
  intro c2 h2
  rcases step_cases s e with ⟨_, hn, _, _⟩ | ⟨c, hc, _, hs⟩ | ⟨c, i, first, rest, hc, _, _, hs⟩ |
    ⟨c, i, _, _, _, hs⟩ | ⟨c, hc, hne, hs, hcalls, _⟩
  · rw [hn] at h2
    exact Option.noConfusion h2
  · rw [hs] at h2 ⊢
    simp only [Option.some.injEq] at h2
    subst h2
    simp [handleSendMessage, turnsBy_append, h c hc]
  · rw [hs] at h2 ⊢
    simp only [Option.some.injEq] at h2
    subst h2
    simp [turnsBy_append, h c hc]
  · rw [hs] at h2
    exact Option.noConfusion h2
  · rw [hs] at h2
    simp only [Option.some.injEq] at h2
    subst h2
    rw [hcalls, (handle_of_ne_send c e hne).1, h c hc]

theorem calls_length_run (s : Sys) (es : List Event)
    (h : ∀ c, s.chat = some c → s.calls.length = turnsBy Sender.user c.messages) :
    ∀ c, (run s es).chat = some c →
      (run s es).calls.length = turnsBy Sender.user c.messages := by
  induction es generalizing s with
  | nil => exact h
  | cons e es ih =>
    rw [run_cons]
    exact ih (step s e) (calls_length_step s e h)

theorem parameters_handle (c : ChatState) (e : Event) :
    (handle c e).1.parameters = moveSlider c.parameters e := by
  cases e <;> rfl

theorem parameters_step (s : Sys) (e : Event) (p : GenerationParameters)
    (h : ∀ c, s.chat = some c → c.parameters = p) :
    ∀ c, (step s e).chat = some c → c.parameters = moveSlider p e := by
  intro c2 h2
  rcases step_cases s e with ⟨_, hn, _, _⟩ | ⟨c, hc, he, hs⟩ | ⟨c, i, first, rest, hc, he, _, hs⟩ |
    ⟨c, i, _, _, _, hs⟩ | ⟨c, hc, hne, hs, _, _⟩
  · rw [hn] at h2
    exact Option.noConfusion h2
  · rw [hs] at h2
    simp only [Option.some.injEq] at h2
    subst h2
    rw [he, ← h c hc]
    rfl
  · rw [hs] at h2
    simp only [Option.some.injEq] at h2
    subst h2
    rw [he, ← h c hc]
    rfl
  · rw [hs] at h2
    exact Option.noConfusion h2
  · rw [hs] at h2
    simp only [Option.some.injEq] at h2
    subst h2
    rw [parameters_handle, h c hc]

theorem parameters_run (s : Sys) (es : List Event) (p : GenerationParameters)
    (h : ∀ c, s.chat = some c → c.parameters = p) :
    ∀ c, (run s es).chat = some c → c.parameters = es.foldl moveSlider p := by
  induction es generalizing s p with
  | nil => exact h
  | cons e es ih =>
    rw [run_cons, List.foldl_cons]
    exact ih (step s e) (moveSlider p e) (parameters_step s e p h)

theorem parameters_run_initial (es : List Event) (c : ChatState)
    (h : (run Sys.initial es).chat = some c) : c.parameters = lastSet es :=
  parameters_run Sys.initial es _ (fun c hc => by
    simp only [Sys.initial, Option.some.injEq] at hc
    subst hc
    rfl) c h

theorem balanced_append (l : List Message) (m : Message) (hl : TurnsBalanced l)
    (hm : turnsBy Sender.ai (l ++ [m]) ≤ turnsBy Sender.user (l ++ [m])) :
    TurnsBalanced (l ++ [m]) := by
  intro k
  by_cases hk : k ≤ l.length
  · rw [List.take_append_of_le_length hk]
    exact hl k
  · rw [List.take_of_length_le (by simp; omega)]
    exact hm

/-- The invariant behind C6: the conversation is balanced, and the requests in flight
are covered by user turns that have no assistant turn yet. -/
theorem balanced_step (s : Sys) (e : Event)
    (h : ∀ c, s.chat = some c →
      TurnsBalanced c.messages ∧
        turnsBy Sender.ai c.messages + s.inflight.length ≤ turnsBy Sender.user c.messages) :
    ∀ c, (step s e).chat = some c →
      TurnsBalanced c.messages ∧
        turnsBy Sender.ai c.messages + (step s e).inflight.length ≤
          turnsBy Sender.user c.messages := by
  intro c2 h2
  rcases step_cases s e with ⟨_, hn, _, _⟩ | ⟨c, hc, _, hs⟩ | ⟨c, i, first, rest, hc, _, hi, hs⟩ |
    ⟨c, i, _, _, _, hs⟩ | ⟨c, hc, hne, hs, _, hle⟩
  · rw [hn] at h2
    exact Option.noConfusion h2
  · rw [hs] at h2 ⊢
    simp only [Option.some.injEq] at h2
    subst h2
    obtain ⟨hb, hcount⟩ := h c hc
    have key : turnsBy Sender.ai (c.messages ++ [{ sender := Sender.user, text := c.inputValue }]) +
        (s.inflight.length + 1) ≤
        turnsBy Sender.user (c.messages ++ [{ sender := Sender.user, text := c.inputValue }]) := by
      simp only [turnsBy_append]
      simp
      omega
    refine ⟨balanced_append _ _ hb (by omega), ?_⟩
    simpa [handleSendMessage] using key
  · rw [hs] at h2 ⊢
    simp only [Option.some.injEq] at h2
    subst h2
    obtain ⟨hb, hcount⟩ := h c hc
    have hlen : (s.inflight.eraseIdx i).length = s.inflight.length - 1 :=
      List.length_eraseIdx_of_lt hi
    have key : turnsBy Sender.ai (c.messages ++ [{ sender := Sender.ai, text := first.text }]) +
        (s.inflight.eraseIdx i).length ≤
        turnsBy Sender.user (c.messages ++ [{ sender := Sender.ai, text := first.text }]) := by
      simp only [turnsBy_append, hlen]
      simp
      omega
    exact ⟨balanced_append _ _ hb (by omega), key⟩
  · rw [hs] at h2
    exact Option.noConfusion h2
  · rw [hs] at h2
    simp only [Option.some.injEq] at h2
    subst h2
    obtain ⟨hb, hcount⟩ := h c hc
    rw [(handle_of_ne_send c e hne).1]
    exact ⟨hb, by omega⟩

theorem balanced_run (s : Sys) (es : List Event)
    (h : ∀ c, s.chat = some c →
      TurnsBalanced c.messages ∧
        turnsBy Sender.ai c.messages + s.inflight.length ≤ turnsBy Sender.user c.messages) :
    ∀ c, (run s es).chat = some c →
      TurnsBalanced c.messages ∧
        turnsBy Sender.ai c.messages + (run s es).inflight.length ≤
          turnsBy Sender.user c.messages := by
  induction es generalizing s with
  | nil => exact h
  | cons e es ih =>
    rw [run_cons]
    exact ih (step s e) (balanced_step s e h)

theorem balanced_initial :
    ∀ c, Sys.initial.chat = some c →
      TurnsBalanced c.messages ∧
        turnsBy Sender.ai c.messages + Sys.initial.inflight.length ≤
          turnsBy Sender.user c.messages := by
  intro c hc
  simp only [Sys.initial, Option.some.injEq] at hc
  subst hc
  refine ⟨fun k => ?_, ?_⟩ <;> simp [ChatState.initial, turnsBy, Sys.initial]

theorem head_user_of_balanced (msgs : List Message) (h : TurnsBalanced msgs) (m : Message)
    (hm : msgs.head? = some m) : m.sender = Sender.user := by
  cases msgs with
  | nil => simp at hm
  | cons a l =>
    simp only [List.head?_cons, Option.some.injEq] at hm
    subst hm
    have := h 1
    simp only [List.take_succ_cons, List.take_zero, turnsBy, List.countP_singleton] at this
    cases hs : a.sender with
    | user => rfl
    | ai => simp [hs] at this

theorem length_eq_turnsBy (msgs : List Message) :
    msgs.length = turnsBy Sender.user msgs + turnsBy Sender.ai msgs := by
  induction msgs with
  | nil => rfl
  | cons a l ih =>
    have hu : turnsBy Sender.user (a :: l) =
        turnsBy Sender.user l + if a.sender = Sender.user then 1 else 0 := by
      simp [turnsBy, List.countP_cons]
    have ha : turnsBy Sender.ai (a :: l) =
        turnsBy Sender.ai l + if a.sender = Sender.ai then 1 else 0 := by
      simp [turnsBy, List.countP_cons]
    rw [hu, ha, List.length_cons, ih]
    cases a.sender <;> simp <;> omega

/-- The shapes of a step on a mounted page when the event is not a failure. -/
theorem step_cases_successful (s : Sys) (c : ChatState) (e : Event) (hc : s.chat = some c)
    (hf : isFailure e = false) :
    (e = Event.handleSendMessage ∧
        step s e =
          { chat := some (handleSendMessage c)
            inflight := s.inflight ++ [requestFor c c.inputValue]
            calls := s.calls ++ [requestFor c c.inputValue] }) ∨
      (∃ i first rest, e = Event.resolve i (first :: rest) ∧ i < s.inflight.length ∧
        step s e =
          { chat := some { c with messages := c.messages ++ [{ sender := Sender.ai, text := first.text }] }
            inflight := s.inflight.eraseIdx i
            calls := s.calls }) ∨
      (isSubmission e = false ∧ (step s e).inflight = s.inflight ∧
        ∃ c2, (step s e).chat = some c2 ∧ c2.messages = c.messages) := by
  cases e with
  | handleSendMessage => exact Or.inl ⟨rfl, step_handleSendMessage s c hc⟩
  | resolve i choices =>
    by_cases hi : i < s.inflight.length
    · cases choices with
      | nil => simp [isFailure] at hf
      | cons first rest =>
        exact Or.inr (Or.inl ⟨i, first, rest, rfl, hi, step_resolve_cons s c i first rest hc hi⟩)
    · rw [step_out_of_range_resolve s i choices hi]
      exact Or.inr (Or.inr ⟨rfl, rfl, c, hc, rfl⟩)
  | reject i => simp [isFailure] at hf
  | _ =>
    refine Or.inr (Or.inr ⟨rfl, by simp [step, hc, handle, commit], ?_⟩)
    simp [step, hc, handle, commit]

/-- Counting: as long as no response fails, the user turns are the submissions and
each of them is either answered or still in flight. -/
theorem count_run (s : Sys) (es : List Event) (n : Nat) (hs : allSuccessful es = true)
    (h : ∃ c, s.chat = some c ∧ turnsBy Sender.user c.messages = n ∧
      turnsBy Sender.ai c.messages + s.inflight.length = n) :
    ∃ c, (run s es).chat = some c ∧
      turnsBy Sender.user c.messages = n + submissions es ∧
      turnsBy Sender.ai c.messages + (run s es).inflight.length = n + submissions es := by
  induction es generalizing s n with
  | nil => simpa [run, submissions] using h
  | cons e es ih =>
    obtain ⟨c, hc, hu, ha⟩ := h
    simp only [allSuccessful, List.all_cons, Bool.and_eq_true, Bool.not_eq_true'] at hs
    have hs2 : allSuccessful es = true := hs.2
    rw [run_cons]
    rcases step_cases_successful s c e hc hs.1 with ⟨he, hst⟩ | ⟨i, first, rest, he, hi, hst⟩ |
      ⟨he, hin, c2, hc2, hm⟩
    · have := ih (step s e) (n + 1) hs2 (by
        rw [hst]
        refine ⟨_, rfl, ?_, ?_⟩
        · simp [handleSendMessage, turnsBy_append, hu]
        · simp [handleSendMessage, turnsBy_append]
          omega)
      simpa [submissions, he, isSubmission, List.countP_cons, Nat.add_comm, Nat.add_left_comm,
        Nat.add_assoc] using this
    · have hlen : (s.inflight.eraseIdx i).length = s.inflight.length - 1 :=
        List.length_eraseIdx_of_lt hi
      have := ih (step s e) n hs2 (by
        rw [hst]
        refine ⟨_, rfl, ?_, ?_⟩
        · simp [turnsBy_append, hu]
        · simp [turnsBy_append, hlen]
          omega)
      simpa [submissions, he, isSubmission, List.countP_cons] using this
    · have := ih (step s e) n hs2 ⟨c2, hc2, by rw [hm, hu], by rw [hm, hin, ha]⟩
      simpa [submissions, he, List.countP_cons] using this

theorem alternates_append_pair (l : List Message) (k : Nat) (t u : String)
    (h : Alternates l k) (hl : l.length = 2 * k) :
    Alternates (l ++ [{ sender := Sender.user, text := t }] ++ [{ sender := Sender.ai, text := u }])
      (k + 1) := by
  intro j hj
  by_cases hjk : j < k
  · obtain ⟨h1, h2⟩ := h j hjk
    rw [List.append_assoc, List.getElem?_append_left (by omega),
      List.getElem?_append_left (by omega)]
    exact ⟨h1, h2⟩
  · have hj2 : j = k := by omega
    subst hj2
    constructor
    · rw [List.getElem?_append_left (by simp; omega), ← hl, List.getElem?_concat_length]
      rfl
    · have : 2 * j + 1 = (l ++ [({ sender := Sender.user, text := t } : Message)]).length := by
        simp; omega
      rw [this, List.getElem?_concat_length]
      rfl

theorem inStep_step (s : Sys) (e : Event) (n : Nat) (hf : isFailure e = false)
    (ho : (!isSubmission e || s.inflight.isEmpty) = true) (h : InStep s n) :
    InStep (step s e) (n + if isSubmission e = true then 1 else 0) := by
  obtain ⟨c, hc, hAB⟩ := h
  rcases step_cases_successful s c e hc hf with ⟨he, hst⟩ | ⟨i, first, rest, he, hi, hst⟩ |
    ⟨he, hin, c2, hc2, hm⟩
  · subst he
    simp only [isSubmission, Bool.not_true, Bool.false_or, List.isEmpty_iff] at ho
    rcases hAB with ⟨_, hlen, halt⟩ | ⟨hone, _⟩
    · rw [hst]
      refine ⟨_, rfl, Or.inr ⟨by simp [ho], c.messages, c.inputValue, rfl, ?_, ?_⟩⟩
      · simp only [isSubmission, if_true]
        omega
      · simpa [isSubmission] using halt
    · rw [ho] at hone
      simp at hone
  · subst he
    rcases hAB with ⟨hnil, _, _⟩ | ⟨hone, l, t, hmsgs, hlen, halt⟩
    · rw [hnil] at hi
      simp at hi
    · rw [hst]
      have hn : n - 1 + 1 = n := by omega
      refine ⟨_, rfl, Or.inl ⟨?_, ?_, ?_⟩⟩
      · apply List.length_eq_zero.mp
        rw [List.length_eraseIdx_of_lt hi, hone]
      · simp [isFailure, isSubmission, hmsgs]
        omega
      · have := alternates_append_pair l (n - 1) t first.text halt (by omega)
        rw [hn] at this
        simpa [isSubmission, hmsgs] using this
  · refine ⟨c2, hc2, ?_⟩
    rw [hin, hm]
    simpa [he] using hAB

theorem inStep_run (s : Sys) (es : List Event) (n : Nat) (hs : allSuccessful es = true)
    (ho : oneAtATime s es = true) (h : InStep s n) :
    InStep (run s es) (n + submissions es) := by
  induction es generalizing s n with
  | nil => simpa [run, submissions] using h
  | cons e es ih =>
    simp only [allSuccessful, List.all_cons, Bool.and_eq_true, Bool.not_eq_true'] at hs
    simp only [oneAtATime, Bool.and_eq_true] at ho
    have := ih (step s e) _ hs.2 ho.2 (inStep_step s e n hs.1 ho.1 h)
    rw [run_cons]
    have hsub : submissions (e :: es) =
        (if isSubmission e = true then 1 else 0) + submissions es := by
      simp [submissions, List.countP_cons, Nat.add_comm]
    rw [hsub, ← Nat.add_assoc]
    exact this

/-! The claims. -/

/-- C8: for every mounted state, whatever its pending input (the empty string
included), submitting appends exactly the turn (user, pending input) at the end of the
conversation, empties the input buffer and keeps the five generation parameters; the
conversation grows by one turn, every earlier turn stays in place, and an empty
pending input is appended like any other. -/
theorem C8_submit_appends_user_turn (s : Sys) (c : ChatState) (h : s.chat = some c) :
    (step s Event.handleSendMessage).chat =
        some
          { messages := c.messages ++ [{ sender := Sender.user, text := c.inputValue }]
            inputValue := ""
            temperature := c.temperature
            maxTokens := c.maxTokens
            topP := c.topP
            frequencyPenalty := c.frequencyPenalty
            presencePenalty := c.presencePenalty } ∧
      (∀ c2, (step s Event.handleSendMessage).chat = some c2 →
        c2.messages.length = c.messages.length + 1 ∧
          c2.messages.take c.messages.length = c.messages ∧
          c2.messages.getLast? = some { sender := Sender.user, text := c.inputValue }) ∧
      (c.inputValue = "" →
        (step s Event.handleSendMessage).chat.map ChatState.messages =
          some (c.messages ++ [{ sender := Sender.user, text := "" }])) := by
  rw [step_handleSendMessage s c h]
  refine ⟨rfl, ?_, ?_⟩
  · intro c2 h2
    simp only [Option.some.injEq] at h2
    subst h2
    simp [handleSendMessage]
  · intro h0
    simp [handleSendMessage, h0]

/-- The empty input is submitted from the initial state like any other text. -/
theorem C8_submit_appends_user_turn_witness :
    Sys.initial.chat = some ChatState.initial ∧
      (step Sys.initial Event.handleSendMessage).chat =
        some
          { messages := [{ sender := Sender.user, text := "" }]
            inputValue := ""
            temperature := 0.9
            maxTokens := 150
            topP := 1
            frequencyPenalty := 0.0
            presencePenalty := 0.6 } ∧
      (step Sys.initial Event.handleSendMessage).chat.map ChatState.messages =
        some ([] ++ [{ sender := Sender.user, text := "" }]) :=
  ⟨rfl, (C8_submit_appends_user_turn Sys.initial ChatState.initial rfl).1,
    (C8_submit_appends_user_turn Sys.initial ChatState.initial rfl).2.2 rfl⟩

/-- C2: when the last turn of the conversation is a user turn, the effect sends a
request whose prompt is the persona preamble followed by "Human: ", the text of that
last turn and "\nAI:"; two states whose conversations end in the same turn send the
same prompt, whatever their earlier turns are. -/
theorem C2_prompt_from_latest_turn (c d : ChatState) (m : Message)
    (hc : c.messages.getLast? = some m) (hd : d.messages.getLast? = some m)
    (hm : m.sender = Sender.user) :
    prompt c.messages = some (preamble ++ "Human: " ++ m.text ++ "\nAI:") ∧
      (∃ r, effect c = some r ∧ r.prompt = preamble ++ "Human: " ++ m.text ++ "\nAI:") ∧
      (effect c).map CompletionRequest.prompt = (effect d).map CompletionRequest.prompt := by
  obtain ⟨l, hl⟩ := List.getLast?_eq_some_iff.mp hc
  obtain ⟨l2, hl2⟩ := List.getLast?_eq_some_iff.mp hd
  have e1 : effect c = some (requestFor c m.text) := by
    simp [effect, hl, trigger_append, hm, createCompletionArgs, prompt_append, requestFor]
  have e2 : effect d = some (requestFor d m.text) := by
    simp [effect, hl2, trigger_append, hm, createCompletionArgs, prompt_append, requestFor]
  refine ⟨?_, ⟨_, e1, rfl⟩, ?_⟩
  · rw [hl, prompt_append]
  · rw [e1, e2]
    rfl

/-- A three-turn conversation and a one-turn conversation that end in the same user
turn send the same prompt. -/
theorem C2_prompt_from_latest_turn_witness :
    (effect
        { ChatState.initial with
          messages :=
            [{ sender := Sender.user, text := "first" }, { sender := Sender.ai, text := "reply" },
              { sender := Sender.user, text := "Hi" }] }).map CompletionRequest.prompt =
      (effect
        { ChatState.initial with
          messages := [{ sender := Sender.user, text := "Hi" }] }).map CompletionRequest.prompt :=
  (C2_prompt_from_latest_turn
    { ChatState.initial with
      messages :=
        [{ sender := Sender.user, text := "first" }, { sender := Sender.ai, text := "reply" },
          { sender := Sender.user, text := "Hi" }] }
    { ChatState.initial with messages := [{ sender := Sender.user, text := "Hi" }] }
    { sender := Sender.user, text := "Hi" } rfl rfl rfl).2.2

/-- C5: when a request in flight resolves with a non-empty list of candidates, the
conversation becomes the conversation of that moment followed by one assistant turn
carrying the text of the first candidate; the hook state is otherwise the same, every
earlier turn stays in place, and the candidates after the first change nothing. -/
theorem C5_first_candidate_appended (s : Sys) (c : ChatState) (i : Nat) (first : Choice)
    (rest others : List Choice) (h : s.chat = some c) (hi : i < s.inflight.length) :
    (step s (Event.resolve i (first :: rest))).chat =
        some { c with messages := c.messages ++ [{ sender := Sender.ai, text := first.text }] } ∧
      (∀ c2, (step s (Event.resolve i (first :: rest))).chat = some c2 →
        c2.messages.length = c.messages.length + 1 ∧
          c2.messages.take c.messages.length = c.messages) ∧
      step s (Event.resolve i (first :: rest)) = step s (Event.resolve i (first :: others)) := by
  rw [step_resolve_cons s c i first rest h hi, step_resolve_cons s c i first others h hi]
  refine ⟨rfl, ?_, rfl⟩
  intro c2 h2
  simp only [Option.some.injEq] at h2
  subst h2
  simp

/-- The request for "A" resolves, with two candidates, after "B" was submitted too: the
first candidate is appended behind both user turns. -/
theorem C5_first_candidate_appended_witness :
    (step
          (run Sys.initial
            [Event.setInputValue "A", Event.handleSendMessage, Event.setInputValue "B",
              Event.handleSendMessage])
          (Event.resolve 0 [{ text := "reply to A" }, { text := "another" }])).chat =
      some
        { ChatState.initial with
          messages :=
            [{ sender := Sender.user, text := "A" }, { sender := Sender.user, text := "B" }] ++
              [{ sender := Sender.ai, text := "reply to A" }] } :=
  (C5_first_candidate_appended
    (run Sys.initial
      [Event.setInputValue "A", Event.handleSendMessage, Event.setInputValue "B",
        Event.handleSendMessage])
    { ChatState.initial with
      messages := [{ sender := Sender.user, text := "A" }, { sender := Sender.user, text := "B" }] }
    0 { text := "reply to A" } [{ text := "another" }] [] rfl (by decide)).1

/-- C9: from the initial state, typing and submitting "Hello" makes exactly one call,
whose prompt is the preamble followed by "Human: Hello\nAI:" and whose parameters are
the defaults 0.9, 150, 1, 0 and 0.6; that call is the only request in flight, and when
it resolves with "Hi there!" the conversation is exactly (user, "Hello"),
(ai, "Hi there!") and no further call is made. -/
theorem C9_hello_scenario :
    (run Sys.initial [Event.setInputValue "Hello", Event.handleSendMessage]).calls =
        [{ model := "text-davinci-003"
           prompt := preamble ++ "Human: Hello\nAI:"
           temperature := 0.9
           max_tokens := 150
           top_p := 1
           frequency_penalty := 0
           presence_penalty := 0.6
           stop := [" Human:", " AI:"] }] ∧
      (run Sys.initial [Event.setInputValue "Hello", Event.handleSendMessage]).inflight =
        (run Sys.initial [Event.setInputValue "Hello", Event.handleSendMessage]).calls ∧
      ((run Sys.initial
            [Event.setInputValue "Hello", Event.handleSendMessage,
              Event.resolve 0 [{ text := "Hi there!" }]]).chat.map ChatState.messages) =
        some [{ sender := Sender.user, text := "Hello" }, { sender := Sender.ai, text := "Hi there!" }] ∧
      (run Sys.initial
            [Event.setInputValue "Hello", Event.handleSendMessage,
              Event.resolve 0 [{ text := "Hi there!" }]]).calls.length = 1 ∧
      (run Sys.initial
            [Event.setInputValue "Hello", Event.handleSendMessage,
              Event.resolve 0 [{ text := "Hi there!" }]]).inflight = [] := by
  refine ⟨?_, rfl, rfl, rfl, rfl⟩
  simp [run, step, Sys.initial, ChatState.initial, handle, commit, effect, handleSendMessage,
    trigger, createCompletionArgs, prompt]
  exact ⟨by decide, by norm_num⟩

/-- C10: typing and submitting "A" and then "B" before any response leaves two
requests in flight, the first with the prompt for "A" and the second with the prompt
for "B".  From there the responses may arrive in either order: A first gives
(user A, user B, ai reply-to-A, ai reply-to-B), B first gives
(user A, user B, ai reply-to-B, ai reply-to-A).  Neither conversation alternates
user and assistant turns. -/
theorem C10_two_requests_race (replyA replyB : String) :
    (run Sys.initial
          [Event.setInputValue "A", Event.handleSendMessage, Event.setInputValue "B",
            Event.handleSendMessage]).inflight.map CompletionRequest.prompt =
        [preamble ++ "Human: A\nAI:", preamble ++ "Human: B\nAI:"] ∧
      (run Sys.initial
          [Event.setInputValue "A", Event.handleSendMessage, Event.setInputValue "B",
            Event.handleSendMessage, Event.resolve 0 [{ text := replyA }],
            Event.resolve 0 [{ text := replyB }]]).chat.map ChatState.messages =
        some
          [{ sender := Sender.user, text := "A" }, { sender := Sender.user, text := "B" },
            { sender := Sender.ai, text := replyA }, { sender := Sender.ai, text := replyB }] ∧
      (run Sys.initial
          [Event.setInputValue "A", Event.handleSendMessage, Event.setInputValue "B",
            Event.handleSendMessage, Event.resolve 1 [{ text := replyB }],
            Event.resolve 0 [{ text := replyA }]]).chat.map ChatState.messages =
        some
          [{ sender := Sender.user, text := "A" }, { sender := Sender.user, text := "B" },
            { sender := Sender.ai, text := replyB }, { sender := Sender.ai, text := replyA }] ∧
      ¬ Alternates
          [{ sender := Sender.user, text := "A" }, { sender := Sender.user, text := "B" },
            { sender := Sender.ai, text := replyA }, { sender := Sender.ai, text := replyB }] 2 ∧
      ¬ Alternates
          [{ sender := Sender.user, text := "A" }, { sender := Sender.user, text := "B" },
            { sender := Sender.ai, text := replyB }, { sender := Sender.ai, text := replyA }] 2 := by
  refine ⟨by decide, rfl, rfl, ?_, ?_⟩
  · intro h
    have h1 := (h 0 (by decide)).2
    simp at h1
  · intro h
    have h1 := (h 0 (by decide)).2
    simp at h1

/-- Counterexample to C7 as stated: after "Hello" was sent, a response whose candidate
list is empty does not leave the state as it was; the updater throws while React
renders and the component, with its conversation, is unmounted. -/
theorem C7_empty_candidates_unmount :
    (run Sys.initial [Event.setInputValue "Hello", Event.handleSendMessage]).chat.map
          ChatState.messages = some [{ sender := Sender.user, text := "Hello" }] ∧
      (step (run Sys.initial [Event.setInputValue "Hello", Event.handleSendMessage])
          (Event.resolve 0 [])).chat = none ∧
      (step (run Sys.initial [Event.setInputValue "Hello", Event.handleSendMessage])
          (Event.resolve 0 [])).chat ≠
        (run Sys.initial [Event.setInputValue "Hello", Event.handleSendMessage]).chat := by
  refine ⟨rfl, rfl, ?_⟩
  intro h
  exact Option.noConfusion h

/-- C7, amended: a rejected request leaves the hook state (conversation, input buffer
and the five generation parameters) and the record of calls as they were, and only
leaves the set of requests in flight; no call is made afterwards until the user submits
again.  A response whose candidate list is empty also appends no turn and causes no
call, but it is not such a failure: its error is thrown by the state updater while
React renders, and the component is unmounted. -/
theorem C7_rejection_leaves_state (s : Sys) (i : Nat) (es : List Event)
    (hes : ∀ e ∈ es, e ≠ Event.handleSendMessage) :
    (step s (Event.reject i)).chat = s.chat ∧
      (step s (Event.reject i)).calls = s.calls ∧
      (step s (Event.reject i)).inflight.length ≤ s.inflight.length ∧
      (run (step s (Event.reject i)) es).calls = s.calls ∧
      (i < s.inflight.length → s.chat ≠ none →
        (step s (Event.resolve i [])).chat = none ∧
          (run (step s (Event.resolve i [])) es).calls = s.calls) := by
  have hr : (step s (Event.reject i)).calls = s.calls :=
    calls_step_of_ne_send s _ (by simp)
  refine ⟨?_, hr, ?_, ?_, ?_⟩
  · by_cases hi : i < s.inflight.length
    · rw [step_reject s i hi]
    · rw [step_out_of_range_reject s i hi]
  · by_cases hi : i < s.inflight.length
    · rw [step_reject s i hi]
      exact List.length_eraseIdx_le _ _
    · rw [step_out_of_range_reject s i hi]
  · rw [calls_run_of_no_send _ es hes, hr]
  · intro hi hc
    obtain ⟨c, hc2⟩ := Option.ne_none_iff_exists'.mp hc
    rw [calls_run_of_no_send _ es hes, step_resolve_nil s c i hc2 hi]
    exact ⟨rfl, rfl⟩

/-- After "Hello" was sent, rejecting its request and then moving a slider and typing
leave the conversation and the single call in place, whereas an empty candidate list
unmounts the component. -/
theorem C7_rejection_leaves_state_witness :
    (step (run Sys.initial [Event.setInputValue "Hello", Event.handleSendMessage])
          (Event.reject 0)).chat =
        (run Sys.initial [Event.setInputValue "Hello", Event.handleSendMessage]).chat ∧
      (run (step (run Sys.initial [Event.setInputValue "Hello", Event.handleSendMessage])
            (Event.reject 0)) [Event.setTemperature 0.5, Event.setInputValue "x"]).calls =
        (run Sys.initial [Event.setInputValue "Hello", Event.handleSendMessage]).calls ∧
      (step (run Sys.initial [Event.setInputValue "Hello", Event.handleSendMessage])
          (Event.resolve 0 [])).chat = none :=
  ⟨(C7_rejection_leaves_state
      (run Sys.initial [Event.setInputValue "Hello", Event.handleSendMessage]) 0
      [Event.setTemperature 0.5, Event.setInputValue "x"] (by decide)).1,
    (C7_rejection_leaves_state
      (run Sys.initial [Event.setInputValue "Hello", Event.handleSendMessage]) 0
      [Event.setTemperature 0.5, Event.setInputValue "x"] (by decide)).2.2.2.1,
    ((C7_rejection_leaves_state
      (run Sys.initial [Event.setInputValue "Hello", Event.handleSendMessage]) 0
      [Event.setTemperature 0.5, Event.setInputValue "x"] (by decide)).2.2.2.2
        (by decide) (by decide)).1⟩

/-- C3: an event makes a call exactly when it changed the conversation and the new
conversation ends in a user turn, and then it makes exactly one; every event other
than a submission (a response that appends an assistant turn, a failed response, a
slider move, typing) makes none; and along every sequence of events from the initial
state the number of calls made equals the number of user turns of the conversation. -/
theorem C3_one_call_per_user_turn (s : Sys) (e : Event) (es : List Event) :
    ((∃ r, (step s e).calls = s.calls ++ [r]) ↔
        ((step s e).chat.map ChatState.messages ≠ s.chat.map ChatState.messages ∧
          ∃ c m, (step s e).chat = some c ∧ c.messages.getLast? = some m ∧
            m.sender = Sender.user)) ∧
      ((step s e).calls = s.calls ∨ ∃ r, (step s e).calls = s.calls ++ [r]) ∧
      (e ≠ Event.handleSendMessage → (step s e).calls = s.calls) ∧
      (∀ c, (run Sys.initial es).chat = some c →
        (run Sys.initial es).calls.length = turnsBy Sender.user c.messages) := by
  refine ⟨?_, ?_, calls_step_of_ne_send s e, ?_⟩
  · rcases step_cases s e with ⟨hc, hn, hcalls, _⟩ | ⟨c, hc, _, hs⟩ |
      ⟨c, i, first, rest, hc, _, _, hs⟩ | ⟨c, i, hc, _, _, hs⟩ | ⟨c, hc, hne, hs, hcalls, _⟩
    · constructor
      · rintro ⟨r, hr⟩
        rw [hcalls] at hr
        simpa using congrArg List.length hr
      · rintro ⟨hch, _⟩
        rw [hn, hc] at hch
        exact absurd rfl hch
    · constructor
      · intro _
        rw [hs, hc]
        refine ⟨?_, handleSendMessage c, { sender := Sender.user, text := c.inputValue },
          rfl, ?_, rfl⟩
        · intro h
          simpa [handleSendMessage] using congrArg (Option.map List.length) h
        · simp [handleSendMessage]
      · intro _
        exact ⟨_, by rw [hs]⟩
    · constructor
      · rintro ⟨r, hr⟩
        rw [hs] at hr
        simpa using congrArg List.length hr
      · rintro ⟨_, c2, m, h2, hl, hm⟩
        rw [hs] at h2
        simp only [Option.some.injEq] at h2
        subst h2
        simp at hl
        subst hl
        exact Sender.noConfusion hm
    · constructor
      · rintro ⟨r, hr⟩
        rw [hs] at hr
        simpa using congrArg List.length hr
      · rintro ⟨_, c2, m, h2, _⟩
        rw [hs] at h2
        exact Option.noConfusion h2
    · constructor
      · rintro ⟨r, hr⟩
        rw [hcalls] at hr
        simpa using congrArg List.length hr
      · rintro ⟨hch, _⟩
        rw [hs, hc] at hch
        simp [(handle_of_ne_send c e hne).1] at hch
  · by_cases he : e = Event.handleSendMessage
    · rcases step_cases s e with ⟨_, _, hcalls, _⟩ | ⟨c, _, _, hs⟩ |
        ⟨c, i, first, rest, _, _, _, hs⟩ | ⟨c, i, _, _, _, hs⟩ | ⟨c, _, _, _, hcalls, _⟩
      · exact Or.inl hcalls
      · exact Or.inr ⟨_, by rw [hs]⟩
      · exact Or.inl (by rw [hs])
      · exact Or.inl (by rw [hs])
      · exact Or.inl hcalls
    · exact Or.inl (calls_step_of_ne_send s e he)
  · exact calls_length_run Sys.initial es (fun c hc => by
      simp only [Sys.initial, Option.some.injEq] at hc
      subst hc
      rfl)

/-- Along submit "A", resolve, submit "B", reject: two user turns, two calls; and
the response that appended the assistant turn made no call. -/
theorem C3_one_call_per_user_turn_witness :
    (run Sys.initial
        [Event.setInputValue "A", Event.handleSendMessage, Event.resolve 0 [{ text := "a" }],
          Event.setInputValue "B", Event.handleSendMessage, Event.reject 0]).calls.length =
      turnsBy Sender.user
        [{ sender := Sender.user, text := "A" }, { sender := Sender.ai, text := "a" },
          { sender := Sender.user, text := "B" }] ∧
      (step (run Sys.initial [Event.setInputValue "A", Event.handleSendMessage])
          (Event.resolve 0 [{ text := "a" }])).calls =
        (run Sys.initial [Event.setInputValue "A", Event.handleSendMessage]).calls :=
  ⟨(C3_one_call_per_user_turn Sys.initial Event.handleSendMessage
      [Event.setInputValue "A", Event.handleSendMessage, Event.resolve 0 [{ text := "a" }],
        Event.setInputValue "B", Event.handleSendMessage, Event.reject 0]).2.2.2
      { ChatState.initial with
        messages :=
          [{ sender := Sender.user, text := "A" }, { sender := Sender.ai, text := "a" },
            { sender := Sender.user, text := "B" }] } rfl,
    (C3_one_call_per_user_turn (run Sys.initial [Event.setInputValue "A", Event.handleSendMessage])
      (Event.resolve 0 [{ text := "a" }]) []).2.2.1 (by decide)⟩

/-- C4: whenever an event, coming after any sequence of events from the initial
state, makes a call, the request names the model "text-davinci-003", carries exactly
the stop sequences " Human:" and " AI:" in that order, and its temperature,
max_tokens, top_p, frequency_penalty and presence_penalty are the values the sliders
were last set to at that moment (the initial values where a slider was never moved),
which are also the values held in the hook state right after the event. -/
theorem C4_request_carries_current_parameters (es : List Event) (e : Event)
    (r : CompletionRequest)
    (h : (step (run Sys.initial es) e).calls = (run Sys.initial es).calls ++ [r]) :
    r.model = "text-davinci-003" ∧ r.stop = [" Human:", " AI:"] ∧
      r.temperature = (lastSet es).temperature ∧
      r.max_tokens = (lastSet es).maxTokens ∧
      r.top_p = (lastSet es).topP ∧
      r.frequency_penalty = (lastSet es).frequencyPenalty ∧
      r.presence_penalty = (lastSet es).presencePenalty ∧
      ∃ c, (step (run Sys.initial es) e).chat = some c ∧
        r.temperature = c.temperature ∧ r.max_tokens = c.maxTokens ∧ r.top_p = c.topP ∧
        r.frequency_penalty = c.frequencyPenalty ∧ r.presence_penalty = c.presencePenalty := by
  have grow : ∀ (l : List CompletionRequest), l ≠ l ++ [r] := fun l hl => by
    simpa using congrArg List.length hl
  rcases step_cases (run Sys.initial es) e with ⟨_, _, hcalls, _⟩ | ⟨c, hc, _, hs⟩ |
    ⟨c, i, first, rest, _, _, _, hs⟩ | ⟨c, i, _, _, _, hs⟩ | ⟨c, _, _, _, hcalls, _⟩
  · exact absurd (hcalls.symm.trans h) (grow _)
  · rw [hs] at h ⊢
    have hr : r = requestFor c c.inputValue := by
      have := List.append_cancel_left h
      simpa using this.symm
    have hp := parameters_run_initial es c hc
    subst hr
    rw [← hp]
    exact ⟨rfl, rfl, rfl, rfl, rfl, rfl, rfl, _, rfl, rfl, rfl, rfl, rfl, rfl⟩
  · rw [hs] at h
    exact absurd h (grow _)
  · rw [hs] at h
    exact absurd h (grow _)
  · exact absurd (hcalls.symm.trans h) (grow _)

/-- After the temperature slider was moved to 0.5 and then to 0.2 and the max-tokens
slider to 64, the next submission makes one call, which carries the temperature and
the max_tokens the sliders were last set to. -/
theorem C4_request_carries_current_parameters_witness :
    (step
          (run Sys.initial
            [Event.setTemperature 0.5, Event.setInputValue "Hi", Event.setTemperature 0.2,
              Event.setMaxTokens 64])
          Event.handleSendMessage).calls =
        (run Sys.initial
            [Event.setTemperature 0.5, Event.setInputValue "Hi", Event.setTemperature 0.2,
              Event.setMaxTokens 64]).calls ++
          [requestFor { ChatState.initial with temperature := 0.2, maxTokens := 64 } "Hi"] ∧
      (requestFor { ChatState.initial with temperature := 0.2, maxTokens := 64 } "Hi").temperature =
        (lastSet
          [Event.setTemperature 0.5, Event.setInputValue "Hi", Event.setTemperature 0.2,
            Event.setMaxTokens 64]).temperature ∧
      (requestFor { ChatState.initial with temperature := 0.2, maxTokens := 64 } "Hi").max_tokens =
        (lastSet
          [Event.setTemperature 0.5, Event.setInputValue "Hi", Event.setTemperature 0.2,
            Event.setMaxTokens 64]).maxTokens :=
  ⟨rfl,
    (C4_request_carries_current_parameters
      [Event.setTemperature 0.5, Event.setInputValue "Hi", Event.setTemperature 0.2,
        Event.setMaxTokens 64]
      Event.handleSendMessage
      (requestFor { ChatState.initial with temperature := 0.2, maxTokens := 64 } "Hi") rfl).2.2.1,
    (C4_request_carries_current_parameters
      [Event.setTemperature 0.5, Event.setInputValue "Hi", Event.setTemperature 0.2,
        Event.setMaxTokens 64]
      Event.handleSendMessage
      (requestFor { ChatState.initial with temperature := 0.2, maxTokens := 64 } "Hi") rfl).2.2.2.1⟩

/-- C6: in every conversation reached from the initial state by any sequence of
events, a non-empty conversation starts with a user turn, every initial segment holds
at least as many user turns as assistant turns, and every assistant turn has a user
turn somewhere before it. -/
theorem C6_assistant_turn_preceded_by_user_turn (es : List Event) (c : ChatState)
    (h : (run Sys.initial es).chat = some c) :
    (∀ m, c.messages.head? = some m → m.sender = Sender.user) ∧
      (∀ k, turnsBy Sender.ai (c.messages.take k) ≤ turnsBy Sender.user (c.messages.take k)) ∧
      (∀ (i : Nat) (m : Message), c.messages[i]? = some m → m.sender = Sender.ai →
        ∃ (j : Nat) (u : Message), j < i ∧ c.messages[j]? = some u ∧ u.sender = Sender.user) := by
  have hb : TurnsBalanced c.messages := (balanced_run Sys.initial es balanced_initial c h).1
  have hhead := head_user_of_balanced c.messages hb
  refine ⟨hhead, hb, ?_⟩
  intro i m hi hm
  cases hmsgs : c.messages with
  | nil => simp [hmsgs] at hi
  | cons a l =>
    have ha : a.sender = Sender.user := hhead a (by simp [hmsgs])
    cases i with
    | zero =>
      rw [hmsgs] at hi
      simp only [List.getElem?_cons_zero, Option.some.injEq] at hi
      subst hi
      rw [ha] at hm
      exact Sender.noConfusion hm
    | succ j => exact ⟨0, a, Nat.succ_pos j, by simp, ha⟩

/-- The race of two submissions answered in reverse order still yields a conversation
that starts with a user turn. -/
theorem C6_assistant_turn_preceded_by_user_turn_witness :
    (run Sys.initial
          [Event.setInputValue "A", Event.handleSendMessage, Event.setInputValue "B",
            Event.handleSendMessage, Event.resolve 1 [{ text := "b" }],
            Event.reject 0]).chat =
        some
          { ChatState.initial with
            messages :=
              [{ sender := Sender.user, text := "A" }, { sender := Sender.user, text := "B" },
                { sender := Sender.ai, text := "b" }] } ∧
      ∀ k,
        turnsBy Sender.ai
            (List.take k
              [{ sender := Sender.user, text := "A" }, { sender := Sender.user, text := "B" },
                { sender := Sender.ai, text := "b" }]) ≤
          turnsBy Sender.user
            (List.take k
              [{ sender := Sender.user, text := "A" }, { sender := Sender.user, text := "B" },
                { sender := Sender.ai, text := "b" }]) :=
  ⟨rfl,
    (C6_assistant_turn_preceded_by_user_turn
      [Event.setInputValue "A", Event.handleSendMessage, Event.setInputValue "B",
        Event.handleSendMessage, Event.resolve 1 [{ text := "b" }], Event.reject 0]
      { ChatState.initial with
        messages :=
          [{ sender := Sender.user, text := "A" }, { sender := Sender.user, text := "B" },
            { sender := Sender.ai, text := "b" }] } rfl).2.1⟩

/-- Counterexample to C1 as stated: "A" and "B" are submitted before any response,
then both requests receive a successful response.  Both submissions were answered
and the conversation has four turns, but they are user, user, ai, ai: turn 1 is not
an assistant turn, so the conversation does not alternate. -/
theorem C1_overlapping_round_trips_do_not_alternate :
    allSuccessful
          [Event.setInputValue "A", Event.handleSendMessage, Event.setInputValue "B",
            Event.handleSendMessage, Event.resolve 0 [{ text := "a" }],
            Event.resolve 0 [{ text := "b" }]] = true ∧
      submissions
          [Event.setInputValue "A", Event.handleSendMessage, Event.setInputValue "B",
            Event.handleSendMessage, Event.resolve 0 [{ text := "a" }],
            Event.resolve 0 [{ text := "b" }]] = 2 ∧
      (run Sys.initial
          [Event.setInputValue "A", Event.handleSendMessage, Event.setInputValue "B",
            Event.handleSendMessage, Event.resolve 0 [{ text := "a" }],
            Event.resolve 0 [{ text := "b" }]]).inflight = [] ∧
      (run Sys.initial
          [Event.setInputValue "A", Event.handleSendMessage, Event.setInputValue "B",
            Event.handleSendMessage, Event.resolve 0 [{ text := "a" }],
            Event.resolve 0 [{ text := "b" }]]).chat.map ChatState.messages =
        some
          [{ sender := Sender.user, text := "A" }, { sender := Sender.user, text := "B" },
            { sender := Sender.ai, text := "a" }, { sender := Sender.ai, text := "b" }] ∧
      ¬ Alternates
          [{ sender := Sender.user, text := "A" }, { sender := Sender.user, text := "B" },
            { sender := Sender.ai, text := "a" }, { sender := Sender.ai, text := "b" }] 2 := by
  refine ⟨by decide, by decide, rfl, rfl, ?_⟩
  intro h
  have h1 := (h 0 (by decide)).2
  simp at h1

/-- C1, amended: from the initial state, after any sequence of events in which no
response fails and after which no request is left in flight, the conversation has
exactly 2N turns, N of them user turns and N assistant turns, where N is the number of
submissions; and when each response arrived before the next submission, turn 2k is a
user turn and turn 2k+1 an assistant turn for every k < N. -/
theorem C1_successful_round_trips (es : List Event) (hs : allSuccessful es = true)
    (hdone : (run Sys.initial es).inflight = []) :
    ∃ c, (run Sys.initial es).chat = some c ∧
      c.messages.length = 2 * submissions es ∧
      turnsBy Sender.user c.messages = submissions es ∧
      turnsBy Sender.ai c.messages = submissions es ∧
      (oneAtATime Sys.initial es = true → Alternates c.messages (submissions es)) := by
  obtain ⟨c, hc, hu, ha⟩ :=
    count_run Sys.initial es 0 hs ⟨ChatState.initial, rfl, rfl, rfl⟩
  rw [hdone] at ha
  simp only [List.length_nil, Nat.add_zero, Nat.zero_add] at ha hu
  refine ⟨c, hc, ?_, hu, ha, ?_⟩
  · rw [length_eq_turnsBy, hu, ha]
    omega
  · intro ho
    have h0 : InStep Sys.initial 0 :=
      ⟨ChatState.initial, rfl, Or.inl ⟨rfl, rfl, fun k hk => absurd hk (Nat.not_lt_zero k)⟩⟩
    obtain ⟨c2, hc2, hAB⟩ := inStep_run Sys.initial es 0 hs ho h0
    rw [hc] at hc2
    simp only [Option.some.injEq] at hc2
    subst hc2
    rw [Nat.zero_add] at hAB
    rcases hAB with ⟨_, _, halt⟩ | ⟨hone, _⟩
    · exact halt
    · rw [hdone] at hone
      simp at hone

/-- Two round trips one after the other, with a slider moved in between: four turns
that alternate. -/
theorem C1_successful_round_trips_witness :
    allSuccessful
          [Event.setInputValue "Hello", Event.handleSendMessage,
            Event.resolve 0 [{ text := "Hi there!" }], Event.setTemperature 0.5,
            Event.setInputValue "Bye", Event.handleSendMessage,
            Event.resolve 0 [{ text := "Goodbye" }]] = true ∧
      (run Sys.initial
          [Event.setInputValue "Hello", Event.handleSendMessage,
            Event.resolve 0 [{ text := "Hi there!" }], Event.setTemperature 0.5,
            Event.setInputValue "Bye", Event.handleSendMessage,
            Event.resolve 0 [{ text := "Goodbye" }]]).inflight = [] ∧
      oneAtATime Sys.initial
          [Event.setInputValue "Hello", Event.handleSendMessage,
            Event.resolve 0 [{ text := "Hi there!" }], Event.setTemperature 0.5,
            Event.setInputValue "Bye", Event.handleSendMessage,
            Event.resolve 0 [{ text := "Goodbye" }]] = true ∧
      ∃ c,
        (run Sys.initial
            [Event.setInputValue "Hello", Event.handleSendMessage,
              Event.resolve 0 [{ text := "Hi there!" }], Event.setTemperature 0.5,
              Event.setInputValue "Bye", Event.handleSendMessage,
              Event.resolve 0 [{ text := "Goodbye" }]]).chat = some c ∧
          c.messages.length = 2 * 2 ∧ turnsBy Sender.user c.messages = 2 ∧
          turnsBy Sender.ai c.messages = 2 ∧
          (oneAtATime Sys.initial
              [Event.setInputValue "Hello", Event.handleSendMessage,
                Event.resolve 0 [{ text := "Hi there!" }], Event.setTemperature 0.5,
                Event.setInputValue "Bye", Event.handleSendMessage,
                Event.resolve 0 [{ text := "Goodbye" }]] = true →
            Alternates c.messages 2) :=
  ⟨by decide, rfl, by decide,
    C1_successful_round_trips
      [Event.setInputValue "Hello", Event.handleSendMessage,
        Event.resolve 0 [{ text := "Hi there!" }], Event.setTemperature 0.5,
        Event.setInputValue "Bye", Event.handleSendMessage,
        Event.resolve 0 [{ text := "Goodbye" }]] (by decide) rfl⟩
